import Mathlib

/-!
# GasYangu firmware: wake / active-window scheduler

A shallow embedding of `firmware/gasyangu/src/main.cpp`.

* Global variables (`bleConnected`, `_wakeMillis`, the value held by the weight
  characteristic) are fields of `State`; every call into a peripheral library
  (LCD, BLE, serial, sleep API, `delay`) is recorded, in program order, in
  `State.trace`.
* Values read from the hardware (`digitalRead`, `millis`, the wakeup cause, the
  load-cell reading) are inputs of the function that reads them.  `millis()` is given
  by the real time (milliseconds since boot, unbounded) of the call and returns that
  time modulo `2 ^ 32` (`unsigned long` is 32 bits wide on the ESP32).
* The `while` loop of `goToSleep` is bounded by a fuel counting button samples; when
  the fuel runs out inside the loop the outcome is `Outcome.blocked` and carries the
  state reached so far.
* A `float` is a sign, a mantissa and a binary exponent; `snprintf` with `%.2f` follows
  the C library: exact rounding to hundredths, output cut to the size of the buffer.
-/

namespace GasYangu

/-! ## Constants -/

def LOADCELL_DOUT_PIN : Nat := 18
def LOADCELL_SCK_PIN : Nat := 19
def WAKEUP_CONFIG_PIN : Nat := 5

/-- The value of `GPIO_INTR_LOW_LEVEL` in the enumeration `gpio_int_type_t` of
`driver/gpio.h` (ESP-IDF, not part of the repository). -/
def GPIO_INTR_LOW_LEVEL : Nat := 4

/-- The macro `(5ULL * 60ULL * 1000000ULL)`, in `unsigned long long` arithmetic. -/
def SLEEP_DURATION_US : Nat := (5 * 60 * 1000000) % 2 ^ 64
def ACTIVE_WINDOW_MS : Nat := 30000
def PUBLISH_INTERVAL_MS : Nat := 2000

def CALIBRATION_VALUE : Int := -150278

def GASYANGU_SERVICE_UUID : String := "4fafc201-1fb5-459e-8fcc-c5c9c331914b"
def WEIGHT_CHAR_UUID : String := "beb5483e-36e1-4688-b7f5-ea07361b26a8"

/-- The glyph stored in CGRAM slot 0 (gas flame icon). -/
def flame : List Nat := [0b00100, 0b01110, 0b01110, 0b11111, 0b11111, 0b11011, 0b01110, 0b00000]

/-- Number of values of `unsigned long` on the ESP32. -/
def ULONG_RANGE : Nat := 2 ^ 32

/-! ## Data model -/

/-- Level of a digital input pin; the wake button is active-low, so `LOW` is pressed. -/
inductive Level where
  | LOW
  | HIGH
  deriving DecidableEq, Repr

/-- The enumeration `esp_sleep_source_t` of `esp_sleep.h` (ESP-IDF, not part of the
repository): what `esp_sleep_get_wakeup_cause()` can report.  Each constructor stands
for the constant `ESP_SLEEP_WAKEUP_` followed by its name in capitals. -/
inductive WakeupCause where
  | undefined
  | all
  | ext0
  | ext1
  | timer
  | touchpad
  | ulp
  | gpio
  | uart
  | wifi
  | cocpu
  | cocpuTrapTrig
  | bt
  deriving DecidableEq, Repr

/-- A finite `float` value `(-1)^neg * mant * 2^exp`; `neg` is the sign bit, so
`⟨true, 0, e⟩` is negative zero.  Every finite binary32 value has this form (with
`mant < 2 ^ 24`).  Infinities and NaN are not represented. -/
structure CFloat where
  neg : Bool
  mant : Nat
  exp : Int
  deriving DecidableEq, Repr

/-- Calls into the peripheral libraries, in the order the program issues them. -/
inductive Event where
  | serialBegin (baud : Nat)
  | setCpuFrequencyMhz (mhz : Nat)
  | pinModeInputPullup (pin : Nat)
  | lcdInit
  | lcdBacklight
  | lcdNoBacklight
  | lcdCreateChar (slot : Nat) (glyph : List Nat)
  | lcdClear
  | lcdSetCursor (col row : Nat)
  | lcdPrint (text : String)
  | lcdPrintChar (c : Char)
  | lcdWrite (byte : Nat)
  | delay (ms : Nat)
  | scaleBegin (dout sck : Nat)
  | scaleSetScale (num : Int) (den : Nat)
  | scaleTare
  | scaleGetUnits (w : CFloat)
  | bleInit (name : String)
  | bleCreateServer
  | bleSetCallbacks
  | bleCreateService (uuid : String)
  | bleCreateCharacteristic (uuid : String) (read notify : Bool)
  | bleAddDescriptor2902
  | bleServiceStart
  | bleAddServiceUUID (uuid : String)
  | bleSetScanResponse (enabled : Bool)
  | startAdvertising
  | setValue (text : String)
  | notify
  | serialPrint (text : String)
  | serialPrintln (text : String)
  | serialPrintlnFloat (w : CFloat)
  | digitalRead (pin : Nat) (level : Level)
  | millis (value : Nat)
  | timerWakeup (us : Nat)
  | gpioWakeupEnable (pin : Nat) (intrType : Nat)
  | enableGpioWakeup
  | lightSleepStart
  | getWakeupCause (cause : WakeupCause)
  deriving DecidableEq, Repr

/-- The global variables of the firmware plus the trace of library calls. -/
structure State where
  bleConnected : Bool
  _wakeMillis : Nat
  weightValue : Option String
  trace : List Event
  deriving DecidableEq, Repr

/-- The globals as initialised at program start. -/
def State.boot : State :=
  { bleConnected := false, _wakeMillis := 0, weightValue := none, trace := [] }

/-- Result of a call that contains the release-wait loop. -/
inductive Outcome where
  | returned (s : State)
  | blocked (s : State)
  deriving DecidableEq, Repr

def emit (e : Event) (s : State) : State :=
  { s with trace := s.trace ++ [e] }

def emits (es : List Event) (s : State) : State :=
  { s with trace := s.trace ++ es }

/-- The value `millis()` returns when called at real time `t` (ms since boot). -/
def millis (t : Nat) : Nat := t % ULONG_RANGE

/-- Subtraction of two `unsigned long` values. -/
def ulongSub (a b : Nat) : Nat := (a + ULONG_RANGE - b % ULONG_RANGE) % ULONG_RANGE

/-! ## Formatting (`snprintf`) -/

def CFloat.num (w : CFloat) : Nat := w.mant * 2 ^ w.exp.toNat
def CFloat.den (w : CFloat) : Nat := 2 ^ (-w.exp).toNat

/-- The real value of a float, as a rational number. -/
def CFloat.toRat (w : CFloat) : ℚ :=
  (if w.neg then -1 else 1) * ((w.num : ℚ) / (w.den : ℚ))

/-- Nearest integer to `num / den`, ties to even. -/
def roundHalfEven (num den : Nat) : Nat :=
  let q := num / den
  let r := num % den
  if 2 * r < den then q
  else if den < 2 * r then q + 1
  else if q % 2 = 0 then q else q + 1

def digitChar (d : Nat) : Char := Char.ofNat (48 + d % 10)

/-- Decimal digits of `n`, most significant first, given enough fuel. -/
def natDigitsAux : Nat → Nat → List Char → List Char
  | 0, _, acc => acc
  | fuel + 1, n, acc =>
    if n / 10 = 0 then digitChar n :: acc
    else natDigitsAux fuel (n / 10) (digitChar n :: acc)

def natDigits (n : Nat) : List Char := natDigitsAux (n + 1) n []

/-- The hundredths `|w| * 100` rounded to an integer, as `%.2f` rounds. -/
def CFloat.hundredths (w : CFloat) : Nat := roundHalfEven (100 * w.num) w.den

/-- The full output of the conversion `%.2f` of the C library: a minus sign when the
sign bit is set, the integer part in decimal, a point and two fractional digits, the
value being rounded to the nearest hundredth (ties to even). -/
def formatF2 (w : CFloat) : List Char :=
  (if w.neg then ['-'] else []) ++ natDigits (w.hundredths / 100) ++
    ['.', digitChar (w.hundredths / 10), digitChar w.hundredths]

/-- Left padding with blanks to a minimum field width. -/
def padLeft (width : Nat) (cs : List Char) : List Char :=
  List.replicate (width - cs.length) ' ' ++ cs

/-- The string `snprintf(buf, size, ...)` leaves in `buf`: at most `size - 1`
characters of the output are kept (the last byte holds the terminator). -/
def snprintf (size : Nat) (out : List Char) : String :=
  String.mk (out.take (size - 1))

/-! ## BLE connection callbacks -/

def onConnect (s : State) : State :=
  { s with bleConnected := true }

def onDisconnect (s : State) : State :=
  emit .startAdvertising { s with bleConnected := false }

/-! ## Helpers and screens -/

def typewrite (col row : Nat) (text : String) (ms : Nat) : List Event :=
  .lcdSetCursor col row :: text.toList.flatMap (fun c => [.lcdPrintChar c, .delay ms])

def publishWeight (weight : CFloat) (s : State) : State :=
  let buf := snprintf 12 (formatF2 weight)
  let s := { emit (.setValue buf) s with weightValue := some buf }
  let s := if s.bleConnected then emit .notify s else s
  emits [.serialPrint "BLE publish: ", .serialPrintln buf] s

/-- One step of the converging-dash animation: the buffer after step `i` and the calls. -/
def dashStep (buf : List Char) (i : Nat) : List Char × List Event :=
  let buf := (buf.set i '-').set (15 - i) '-'
  (buf, [.lcdSetCursor 0 0, .lcdPrint (String.mk buf), .lcdSetCursor 0 1,
         .lcdPrint (String.mk buf), .delay 38])

def dashLoop : Nat → Nat → List Char → List Event
  | 0, _, _ => []
  | n + 1, i, buf => (dashStep buf i).2 ++ dashLoop n (i + 1) (dashStep buf i).1

def showWelcomeScreen : List Event :=
  [.lcdClear] ++ dashLoop 8 0 (List.replicate 16 ' ') ++ [.delay 250] ++
  [.lcdClear, .lcdSetCursor 0 0, .lcdWrite 0] ++ typewrite 1 0 " GasYangu " 70 ++
  [.lcdSetCursor 15 0, .lcdWrite 0] ++ typewrite 1 1 " Gas Monitor" 55 ++ [.delay 1000] ++
  [.lcdSetCursor 0 1, .lcdPrint "                ", .lcdSetCursor 0 1] ++
  (List.replicate 16 [Event.lcdWrite 255, Event.delay 75]).flatten ++ [.delay 400]

def showWakeupScreen : List Event :=
  [.lcdClear, .lcdSetCursor 0 0, .lcdWrite 0, .lcdPrint " GasYangu ", .lcdWrite 0,
   .lcdSetCursor 0 1, .lcdPrint "   Monitoring!  ", .delay 800]

def showWeightOnLcd (weight : CFloat) : List Event :=
  let buf := snprintf 17 ("   ".toList ++ padLeft 7 (formatF2 weight) ++ " kg   ".toList)
  [.lcdClear, .lcdSetCursor 0 0, .lcdPrint "  Weight (kg)   ", .lcdSetCursor 0 1, .lcdPrint buf]

/-! ## Sleep / wakeup -/

/-- What the hardware feeds one call of `goToSleep`. -/
structure SleepInput where
  /-- successive results of `digitalRead(WAKEUP_CONFIG_PIN)` in the release-wait loop -/
  samples : Nat → Level
  /-- real time (ms since boot) of the `millis()` call after resuming -/
  resumeTime : Nat
  /-- result of `esp_sleep_get_wakeup_cause()` -/
  cause : WakeupCause

/-- The loop `while (digitalRead(WAKEUP_CONFIG_PIN) == LOW) delay(10);`, reading the
samples from index `i` on; the fuel bounds the number of samples read. -/
def waitRelease (samples : Nat → Level) : Nat → Nat → State → Outcome
  | 0, _, s => .blocked s
  | fuel + 1, i, s =>
    let s := emit (.digitalRead WAKEUP_CONFIG_PIN (samples i)) s
    if samples i = .LOW then waitRelease samples fuel (i + 1) (emit (.delay 10) s)
    else .returned s

/-- The calls of `goToSleep` before the release-wait loop. -/
def sleepScreen : List Event :=
  [.lcdClear, .lcdSetCursor 0 0, .lcdPrint "   Sleeping...  ", .lcdSetCursor 0 1,
   .lcdPrint "  [Btn to wake] ", .delay 1200, .lcdNoBacklight]

/-- The part of `goToSleep` from the debounce delay to its end. -/
def armAndResume (inp : SleepInput) (s : State) : State :=
  let s := emit (.delay 50) s
  let s := emits [.timerWakeup SLEEP_DURATION_US,
                  .gpioWakeupEnable WAKEUP_CONFIG_PIN GPIO_INTR_LOW_LEVEL,
                  .enableGpioWakeup, .lightSleepStart] s
  let s := { s with bleConnected := false }
  let s := emit .startAdvertising s
  let s := { emit (.millis (millis inp.resumeTime)) s with _wakeMillis := millis inp.resumeTime }
  let s := emits [.lcdBacklight, .lcdCreateChar 0 flame] s
  let s := emit (.getWakeupCause inp.cause) s
  if inp.cause = .gpio then emits showWakeupScreen s else s

def goToSleep (inp : SleepInput) (fuel : Nat) (s : State) : Outcome :=
  match waitRelease inp.samples fuel 0 (emits sleepScreen s) with
  | .blocked s => .blocked s
  | .returned s => .returned (armAndResume inp s)

/-! ## Arduino entry points -/

/-- The function `setup`; `bootTime` is the real time of its `millis()` call. -/
def setup (bootTime : Nat) (s : State) : State :=
  let s := emits [.serialBegin 115200, .setCpuFrequencyMhz 80,
                  .pinModeInputPullup WAKEUP_CONFIG_PIN,
                  .lcdInit, .lcdBacklight, .lcdCreateChar 0 flame,
                  .scaleBegin LOADCELL_DOUT_PIN LOADCELL_SCK_PIN,
                  .scaleSetScale CALIBRATION_VALUE 450,
                  .lcdSetCursor 0 0, .lcdPrint "  Zeroing...    ", .scaleTare, .lcdClear,
                  .bleInit "GasYangu", .bleCreateServer, .bleSetCallbacks,
                  .bleCreateService GASYANGU_SERVICE_UUID,
                  .bleCreateCharacteristic WEIGHT_CHAR_UUID true true,
                  .bleAddDescriptor2902, .bleServiceStart,
                  .bleAddServiceUUID GASYANGU_SERVICE_UUID, .bleSetScanResponse true,
                  .startAdvertising] s
  let s := emits showWelcomeScreen s
  { emit (.millis (millis bootTime)) s with _wakeMillis := millis bootTime }

/-- What the hardware feeds one iteration of `loop`. -/
structure TickInput where
  /-- result of `scale.get_units()` -/
  weight : CFloat
  /-- result of `digitalRead(WAKEUP_CONFIG_PIN)` -/
  button : Level
  /-- real time of the `millis()` call that restarts the window (made when pressed) -/
  stampTime : Nat
  /-- real time of the `millis()` call of the expiry check -/
  checkTime : Nat
  /-- inputs of `goToSleep`, used when it is called -/
  sleep : SleepInput

/-- The part of `loop` before the expiry check. -/
def loopHead (inp : TickInput) (s : State) : State :=
  let s := emit (.scaleGetUnits inp.weight) s
  let s := emits (showWeightOnLcd inp.weight) s
  let s := publishWeight inp.weight s
  let s := emits [.serialPrint "Weight: ", .serialPrintlnFloat inp.weight] s
  let s := emit (.digitalRead WAKEUP_CONFIG_PIN inp.button) s
  if inp.button = .LOW then
    { emit (.millis (millis inp.stampTime)) s with _wakeMillis := millis inp.stampTime }
  else s

def loop (inp : TickInput) (fuel : Nat) (s : State) : Outcome :=
  let s := loopHead inp s
  let now := millis inp.checkTime
  let s := emit (.millis now) s
  if ACTIVE_WINDOW_MS ≤ ulongSub now s._wakeMillis then goToSleep inp.sleep fuel s
  else .returned (emit (.delay PUBLISH_INTERVAL_MS) s)

/-- Successive iterations of `loop`, as the Arduino runtime calls it, one per input;
an iteration that does not return ends the run. -/
def run (fuel : Nat) : List TickInput → State → Outcome
  | [], s => .returned s
  | inp :: rest, s =>
    match loop inp fuel s with
    | .returned s => run fuel rest s
    | .blocked s => .blocked s

/-! ## Trace vocabulary used by the statements -/

/-- The calls made by `k` rounds of the release-wait loop that all read the button
pressed: a `LOW` sample followed by `delay(10)`, `k` times. -/
def spin (k : Nat) : List Event :=
  (List.replicate k [Event.digitalRead WAKEUP_CONFIG_PIN .LOW, Event.delay 10]).flatten

/-- The calls of `goToSleep` from the debounce delay up to the suspend call. -/
def armEvents : List Event :=
  [.delay 50, .timerWakeup SLEEP_DURATION_US,
   .gpioWakeupEnable WAKEUP_CONFIG_PIN GPIO_INTR_LOW_LEVEL,
   .enableGpioWakeup, .lightSleepStart]

/-- The calls of `goToSleep` after resuming. -/
def resumeEvents (inp : SleepInput) : List Event :=
  [.startAdvertising, .millis (millis inp.resumeTime), .lcdBacklight, .lcdCreateChar 0 flame,
   .getWakeupCause inp.cause] ++ (if inp.cause = .gpio then showWakeupScreen else [])

/-- The calls of a `goToSleep` that reads `k` pressed samples and then a released one,
up to and including the suspend call. -/
def beforeResume (k : Nat) : List Event :=
  sleepScreen ++ spin k ++ [.digitalRead WAKEUP_CONFIG_PIN .HIGH] ++ armEvents

/-- Calls that arm a wake source. -/
def Event.isArm : Event → Bool
  | .timerWakeup _ => true
  | .gpioWakeupEnable _ _ => true
  | .enableGpioWakeup => true
  | _ => false

/-- Samples of the button pin. -/
def Event.isSample : Event → Bool
  | .digitalRead _ _ => true
  | _ => false

/-- The call `lcd.noBacklight()`: `goToSleep` makes it before it waits for the release,
and no other function makes it, so it marks the calls of `goToSleep` in a trace. -/
def sleepMark : Event := .lcdNoBacklight

/-- The calls of one iteration of `loop` up to and including the `millis()` read of the
expiry check; `connected` is `bleConnected` at the start of the iteration. -/
def tickEvents (inp : TickInput) (connected : Bool) : List Event :=
  [.scaleGetUnits inp.weight] ++ showWeightOnLcd inp.weight ++
  [.setValue (snprintf 12 (formatF2 inp.weight))] ++
  (if connected then [.notify] else []) ++
  [.serialPrint "BLE publish: ", .serialPrintln (snprintf 12 (formatF2 inp.weight)),
   .serialPrint "Weight: ", .serialPrintlnFloat inp.weight,
   .digitalRead WAKEUP_CONFIG_PIN inp.button] ++
  (if inp.button = .LOW then [.millis (millis inp.stampTime)] else []) ++
  [.millis (millis inp.checkTime)]

/-- The state of `loop` when it makes the expiry check. -/
def tickState (inp : TickInput) (s : State) : State :=
  { bleConnected := s.bleConnected,
    _wakeMillis := if inp.button = .LOW then millis inp.stampTime else s._wakeMillis,
    weightValue := some (snprintf 12 (formatF2 inp.weight)),
    trace := s.trace ++ tickEvents inp s.bleConnected }

/-- The state an outcome carries. -/
def Outcome.state : Outcome → State
  | .returned s => s
  | .blocked s => s

/-- The call that draws the second line of the wake-acknowledgement screen; the only
function that makes it is `showWakeupScreen`. -/
def wakeAckMark : Event := .lcdPrint "   Monitoring!  "

/-- The calls of `setup` before the welcome screen. -/
def setupInit : List Event :=
  [.serialBegin 115200, .setCpuFrequencyMhz 80, .pinModeInputPullup WAKEUP_CONFIG_PIN,
   .lcdInit, .lcdBacklight, .lcdCreateChar 0 flame,
   .scaleBegin LOADCELL_DOUT_PIN LOADCELL_SCK_PIN, .scaleSetScale CALIBRATION_VALUE 450,
   .lcdSetCursor 0 0, .lcdPrint "  Zeroing...    ", .scaleTare, .lcdClear,
   .bleInit "GasYangu", .bleCreateServer, .bleSetCallbacks,
   .bleCreateService GASYANGU_SERVICE_UUID,
   .bleCreateCharacteristic WEIGHT_CHAR_UUID true true,
   .bleAddDescriptor2902, .bleServiceStart,
   .bleAddServiceUUID GASYANGU_SERVICE_UUID, .bleSetScanResponse true,
   .startAdvertising]

/-- The real times of the reads of successive iterations are in order: they start
no earlier than `t0`, each iteration reads `stampTime ≤ checkTime ≤ resumeTime`, the next
iteration starts no earlier, and the last read is no later than `tEnd`. -/
def ordered : Nat → List TickInput → Nat → Bool
  | t0, [], tEnd => decide (t0 ≤ tEnd)
  | t0, inp :: rest, tEnd =>
    decide (t0 ≤ inp.stampTime) && decide (inp.stampTime ≤ inp.checkTime) &&
      decide (inp.checkTime ≤ inp.sleep.resumeTime) && ordered inp.sleep.resumeTime rest tEnd

/-! ## Reading a published string back -/

/-- Drops the leading decimal digits. -/
def skipDigits : List Char → List Char
  | [] => []
  | c :: cs => if c.isDigit then skipDigits cs else c :: cs

/-- The body of a string: what follows the optional minus sign. -/
def unsignedPart : List Char → List Char
  | '-' :: cs => cs
  | cs => cs

/-- Whether the whole string matches the regular expression `-?\d+\.\d{2}`. -/
def matchesPattern (cs : List Char) : Bool :=
  match unsignedPart cs with
  | [] => false
  | c :: rest =>
    c.isDigit &&
      (match skipDigits rest with
       | ['.', a, b] => a.isDigit && b.isDigit
       | _ => false)

def digitVal (c : Char) : Nat := c.toNat - 48

/-- The number written by a string of decimal digits. -/
def parseNat (cs : List Char) : Nat := cs.foldl (fun acc c => 10 * acc + digitVal c) 0

/-- The value of a string matching `-?\d+\.\d{2}`, as a parser of decimal numbers
reads it. -/
def parseDecimal (cs : List Char) : Option ℚ :=
  if matchesPattern cs then
    let body := unsignedPart cs
    let whole := body.takeWhile Char.isDigit
    let frac := (body.dropWhile Char.isDigit).drop 1
    some ((if cs.head? = some '-' then -1 else 1) *
      ((parseNat whole : ℚ) + (parseNat frac : ℚ) / 100))
  else none

/-! ## Example inputs -/

/-- The button is still pressed at the first two samples, then released; the wakeup
is a button wakeup at 400 s. -/
def exampleSleep : SleepInput :=
  { samples := fun i => if i < 2 then .LOW else .HIGH, resumeTime := 400000, cause := .gpio }

/-- A released button 20 s after the `millis()` counter wrapped. -/
def wrapTick : TickInput :=
  { weight := ⟨false, 0, 0⟩, button := .HIGH, stampTime := 4294967296 + 20000,
    checkTime := 4294967296 + 20000, sleep := exampleSleep }

/-- A state whose window started 15 s before the `millis()` counter wraps. -/
def wrapState : State :=
  { bleConnected := false, _wakeMillis := 4294952296, weightValue := none, trace := [] }

/-- An iteration at real time `t` that reads the button pressed. -/
def heldTick (t : Nat) : TickInput :=
  { weight := ⟨false, 0, 0⟩, button := .LOW, stampTime := t, checkTime := t,
    sleep := { samples := fun _ => .HIGH, resumeTime := t, cause := .timer } }

/-- The iteration of the press scenario made at real time `t`: the button is down
exactly from 10 s to 40 s; the scale reads zero. -/
def scenarioTick (t : Nat) : TickInput :=
  { weight := ⟨false, 0, 0⟩,
    button := if 10000 ≤ t ∧ t ≤ 40000 then .LOW else .HIGH,
    stampTime := t, checkTime := t,
    sleep := { samples := fun _ => .HIGH, resumeTime := t + 301250, cause := .timer } }

/-- Iteration times `0, step, 2 * step, ...`, `n` of them. -/
def everyMs (step n : Nat) : List Nat := (List.range n).map (fun i => i * step)

/-- A connected state whose window started at 12 s. -/
def exampleState : State :=
  { bleConnected := true, _wakeMillis := 12000, weightValue := none, trace := [] }

def hundredMillion : CFloat := ⟨false, 390625, 8⟩

def twelveKg : CFloat := ⟨false, 12345, -10⟩

/-! ## Lemmas on the trace and the clock -/

theorem emit_eq_emits (e : Event) (s : State) : emit e s = emits [e] s := rfl

theorem emits_emits (a b : List Event) (s : State) :
    emits b (emits a s) = emits (a ++ b) s := by
  simp [emits, List.append_assoc]

theorem spin_succ (k : Nat) :
    spin (k + 1) = [Event.digitalRead WAKEUP_CONFIG_PIN .LOW, Event.delay 10] ++ spin k := by
  simp [spin, List.replicate_succ]

theorem Level.eq_HIGH_of_ne_LOW {l : Level} (h : l ≠ .LOW) : l = .HIGH := by
  cases l
  · exact absurd rfl h
  · rfl

theorem mem_spin {k : Nat} {e : Event} (h : e ∈ spin k) :
    e = .digitalRead WAKEUP_CONFIG_PIN .LOW ∨ e = .delay 10 := by
  induction k with
  | zero => simp [spin] at h
  | succ k ih =>
    rw [spin_succ] at h
    simp only [List.mem_append, List.mem_cons, List.mem_singleton, List.not_mem_nil,
      or_false] at h
    rcases h with (h | h) | h
    · exact Or.inl h
    · exact Or.inr h
    · exact ih h

theorem waitRelease_blocked (samples : Nat → Level) :
    ∀ (fuel i : Nat) (s : State), (∀ j, j < fuel → samples (i + j) = .LOW) →
      waitRelease samples fuel i s = .blocked (emits (spin fuel) s) := by
  intro fuel
  induction fuel with
  | zero => intro i s _; simp [waitRelease, spin, emits]
  | succ fuel ih =>
    intro i s h
    have h0 : samples i = .LOW := by simpa using h 0 (Nat.succ_pos _)
    have hrest : ∀ j, j < fuel → samples (i + 1 + j) = .LOW := by
      intro j hj
      have := h (j + 1) (Nat.succ_lt_succ hj)
      rwa [show i + 1 + j = i + (j + 1) by omega]
    rw [waitRelease, if_pos h0, ih (i + 1) _ hrest, h0, emit_eq_emits, emit_eq_emits,
      emits_emits, emits_emits, spin_succ]
    simp

theorem waitRelease_returned (samples : Nat → Level) :
    ∀ (k fuel i : Nat) (s : State), k < fuel → samples (i + k) = .HIGH →
      (∀ j, j < k → samples (i + j) = .LOW) →
      waitRelease samples fuel i s =
        .returned (emits (spin k ++ [.digitalRead WAKEUP_CONFIG_PIN .HIGH]) s) := by
  intro k
  induction k with
  | zero =>
    intro fuel i s hk hhigh _
    obtain ⟨f, rfl⟩ : ∃ f, fuel = f + 1 := ⟨fuel - 1, by omega⟩
    have h0 : samples i = .HIGH := by simpa using hhigh
    rw [waitRelease, h0, if_neg (by decide), emit_eq_emits]
    simp [spin]
  | succ k ih =>
    intro fuel i s hk hhigh hlow
    obtain ⟨f, rfl⟩ : ∃ f, fuel = f + 1 := ⟨fuel - 1, by omega⟩
    have h0 : samples i = .LOW := by simpa using hlow 0 (Nat.succ_pos _)
    have hhigh1 : samples (i + 1 + k) = .HIGH := by
      rwa [show i + 1 + k = i + (k + 1) by omega]
    have hrest : ∀ j, j < k → samples (i + 1 + j) = .LOW := by
      intro j hj
      have := hlow (j + 1) (Nat.succ_lt_succ hj)
      rwa [show i + 1 + j = i + (j + 1) by omega]
    rw [waitRelease, if_pos h0, ih f (i + 1) _ (by omega) hhigh1 hrest, h0, emit_eq_emits,
      emit_eq_emits, emits_emits, emits_emits, spin_succ]
    simp

theorem armAndResume_eq (inp : SleepInput) (s : State) :
    armAndResume inp s =
      { bleConnected := false, _wakeMillis := millis inp.resumeTime,
        weightValue := s.weightValue,
        trace := s.trace ++ armEvents ++ resumeEvents inp } := by
  unfold armAndResume armEvents resumeEvents
  by_cases h : inp.cause = .gpio <;> simp [h, emit, emits]

theorem goToSleep_blocked (inp : SleepInput) (fuel : Nat) (s : State)
    (h : ∀ j, j < fuel → inp.samples j = .LOW) :
    goToSleep inp fuel s = .blocked (emits (sleepScreen ++ spin fuel) s) := by
  have h2 : ∀ j, j < fuel → inp.samples (0 + j) = .LOW := by simpa using h
  rw [goToSleep, waitRelease_blocked inp.samples fuel 0 _ h2, emits_emits]

theorem goToSleep_returned (inp : SleepInput) (k fuel : Nat) (s : State) (hk : k < fuel)
    (hhigh : inp.samples k = .HIGH) (hlow : ∀ j, j < k → inp.samples j = .LOW) :
    goToSleep inp fuel s =
      .returned (armAndResume inp
        (emits (sleepScreen ++ spin k ++ [.digitalRead WAKEUP_CONFIG_PIN .HIGH]) s)) := by
  have h1 : inp.samples (0 + k) = .HIGH := by simpa using hhigh
  have h2 : ∀ j, j < k → inp.samples (0 + j) = .LOW := by simpa using hlow
  rw [goToSleep, waitRelease_returned inp.samples k fuel 0 _ hk h1 h2, emits_emits]
  simp [List.append_assoc]

theorem sleepScreen_inert :
    ∀ e ∈ sleepScreen, e ≠ .lightSleepStart ∧ e.isArm = false ∧ e ≠ .delay 50 := by
  decide

theorem showWakeupScreen_inert :
    ∀ e ∈ showWakeupScreen, e ≠ .lightSleepStart ∧ e.isSample = false := by
  decide

theorem count_spin (k : Nat) : (spin k).count wakeAckMark = 0 := by
  rw [List.count_eq_zero]
  intro h
  rcases mem_spin h with h | h <;> revert h <;> decide

theorem count_sleepScreen : sleepScreen.count wakeAckMark = 0 := by decide

theorem count_armEvents : armEvents.count wakeAckMark = 0 := by decide

theorem count_showWakeupScreen : showWakeupScreen.count wakeAckMark = 1 := by decide

theorem count_setupInit : setupInit.count wakeAckMark = 0 := by decide

theorem count_showWelcomeScreen : showWelcomeScreen.count wakeAckMark = 0 := by decide

theorem count_resumeEvents (inp : SleepInput) :
    (resumeEvents inp).count wakeAckMark = if inp.cause = .gpio then 1 else 0 := by
  unfold resumeEvents
  by_cases h : inp.cause = .gpio
  · simp only [h, if_true, List.count_append, count_showWakeupScreen]
    simp [wakeAckMark, List.count_cons]
  · simp only [h, if_false, List.append_nil]
    simp [wakeAckMark, List.count_cons]

theorem setup_trace (bootTime : Nat) (s : State) :
    (setup bootTime s).trace =
      s.trace ++ (setupInit ++ showWelcomeScreen ++ [.millis (millis bootTime)]) := by
  simp [setup, setupInit, emit, emits, List.append_assoc]

theorem loop_eq (inp : TickInput) (fuel : Nat) (s : State) :
    loop inp fuel s =
      if ACTIVE_WINDOW_MS ≤ ulongSub (millis inp.checkTime) (tickState inp s)._wakeMillis then
        goToSleep inp.sleep fuel (tickState inp s)
      else .returned (emit (.delay PUBLISH_INTERVAL_MS) (tickState inp s)) := by
  have h : emit (.millis (millis inp.checkTime)) (loopHead inp s) = tickState inp s := by
    cases hb : s.bleConnected <;> cases hl : inp.button <;>
      simp [loopHead, tickState, tickEvents, publishWeight, emit, emits, hb, hl,
        List.append_assoc]
  simp only [loop, h]

theorem sleepMark_not_mem_tickEvents (inp : TickInput) (connected : Bool) :
    sleepMark ∉ tickEvents inp connected ∧ Event.lightSleepStart ∉ tickEvents inp connected := by
  cases connected <;> cases hl : inp.button <;>
    simp [tickEvents, showWeightOnLcd, sleepMark, hl]

/-- Whatever the samples and the fuel, a call of `goToSleep` starts with the pre-sleep
screen. -/
theorem goToSleep_trace (inp : SleepInput) (fuel : Nat) (s : State) :
    ∃ rest, (goToSleep inp fuel s).state.trace = s.trace ++ (sleepScreen ++ rest) := by
  by_cases h : ∀ j, j < fuel → inp.samples j = .LOW
  · exact ⟨spin fuel, by rw [goToSleep_blocked inp fuel s h]; rfl⟩
  · have hex : ∃ k, k < fuel ∧ inp.samples k ≠ .LOW := by
      by_contra hne
      exact h (fun j hj => by_contra fun hj2 => hne ⟨j, hj, hj2⟩)
    classical
    let k := Nat.find hex
    have hk : k < fuel ∧ inp.samples k ≠ .LOW := Nat.find_spec hex
    have hmin : ∀ j, j < k → inp.samples j = .LOW := by
      intro j hj
      by_contra hj2
      exact Nat.find_min hex hj ⟨lt_trans hj hk.1, hj2⟩
    refine ⟨spin k ++ [.digitalRead WAKEUP_CONFIG_PIN .HIGH] ++ armEvents ++ resumeEvents inp, ?_⟩
    rw [goToSleep_returned inp k fuel s hk.1 (Level.eq_HIGH_of_ne_LOW hk.2) hmin]
    simp [Outcome.state, armAndResume_eq, emits, List.append_assoc]

theorem ulongSub_millis (a b : Nat) (hle : a ≤ b) (hlt : b - a < ULONG_RANGE) :
    ulongSub (millis b) (millis a) = b - a := by
  simp only [ulongSub, millis, ULONG_RANGE] at *
  norm_num at *
  omega

/-- Whatever the samples and the fuel, a call of `goToSleep` leaves its mark in the
trace. -/
theorem goToSleep_leaves_mark (inp : SleepInput) (fuel : Nat) (s : State) :
    ∃ new, (goToSleep inp fuel s).state.trace = s.trace ++ new ∧ sleepMark ∈ new := by
  obtain ⟨rest, h⟩ := goToSleep_trace inp fuel s
  exact ⟨sleepScreen ++ rest, h, List.mem_append_left _ (by decide)⟩

theorem goToSleep_cases (inp : SleepInput) (fuel : Nat) (s : State) :
    goToSleep inp fuel s = .blocked (emits (sleepScreen ++ spin fuel) s) ∨
    ∃ k, k < fuel ∧ goToSleep inp fuel s = .returned (armAndResume inp
      (emits (sleepScreen ++ spin k ++ [.digitalRead WAKEUP_CONFIG_PIN .HIGH]) s)) := by
  by_cases h : ∀ j, j < fuel → inp.samples j = .LOW
  · exact Or.inl (goToSleep_blocked inp fuel s h)
  · have hex : ∃ k, k < fuel ∧ inp.samples k ≠ .LOW := by
      by_contra hne
      exact h (fun j hj => by_contra fun hj2 => hne ⟨j, hj, hj2⟩)
    classical
    have hk : Nat.find hex < fuel ∧ inp.samples (Nat.find hex) ≠ .LOW := Nat.find_spec hex
    have hmin : ∀ j, j < Nat.find hex → inp.samples j = .LOW := by
      intro j hj
      by_contra hj2
      exact Nat.find_min hex hj ⟨lt_trans hj hk.1, hj2⟩
    exact Or.inr ⟨_, hk.1,
      goToSleep_returned inp _ fuel s hk.1 (Level.eq_HIGH_of_ne_LOW hk.2) hmin⟩

theorem goToSleep_wakeMillis (inp : SleepInput) (fuel : Nat) (s : State) :
    (goToSleep inp fuel s).state._wakeMillis = s._wakeMillis ∨
    (goToSleep inp fuel s).state._wakeMillis = millis inp.resumeTime := by
  rcases goToSleep_cases inp fuel s with h | ⟨k, _, h⟩
  · exact Or.inl (by rw [h]; rfl)
  · exact Or.inr (by rw [h]; simp [Outcome.state, armAndResume_eq])

/-- An iteration of `loop` that reads the button pressed, with less than 30000 ms
between its two `millis()` reads, restarts the window and does not call `goToSleep`. -/
theorem loop_pressed (inp : TickInput) (fuel : Nat) (s : State) (hbtn : inp.button = .LOW)
    (hle : inp.stampTime ≤ inp.checkTime) (hlt : inp.checkTime - inp.stampTime < 30000) :
    loop inp fuel s = .returned (emit (.delay PUBLISH_INTERVAL_MS) (tickState inp s)) ∧
    (tickState inp s)._wakeMillis = millis inp.stampTime := by
  have hw : (tickState inp s)._wakeMillis = millis inp.stampTime := by simp [tickState, hbtn]
  refine ⟨?_, hw⟩
  rw [loop_eq, hw, ulongSub_millis _ _ hle (by simp only [ULONG_RANGE]; omega),
    if_neg (by simp only [ACTIVE_WINDOW_MS]; omega)]

theorem tick_trace (inp : TickInput) (s : State) :
    (emit (.delay PUBLISH_INTERVAL_MS) (tickState inp s)).trace =
      s.trace ++ (tickEvents inp s.bleConnected ++ [.delay PUBLISH_INTERVAL_MS]) ∧
    sleepMark ∉ tickEvents inp s.bleConnected ++ [.delay PUBLISH_INTERVAL_MS] ∧
    Event.lightSleepStart ∉ tickEvents inp s.bleConnected ++ [.delay PUBLISH_INTERVAL_MS] := by
  refine ⟨by simp [emit, tickState], ?_, ?_⟩
  · intro hmem
    rcases List.mem_append.1 hmem with h1 | h1
    · exact (sleepMark_not_mem_tickEvents inp s.bleConnected).1 h1
    · simp [sleepMark] at h1
  · intro hmem
    rcases List.mem_append.1 hmem with h1 | h1
    · exact (sleepMark_not_mem_tickEvents inp s.bleConnected).2 h1
    · simp at h1

theorem run_all_pressed (fuel : Nat) :
    ∀ (ins : List TickInput) (s : State),
      (∀ inp ∈ ins, inp.button = .LOW ∧ inp.stampTime ≤ inp.checkTime ∧
        inp.checkTime - inp.stampTime < 30000) →
      ∃ s' new, run fuel ins s = .returned s' ∧ s'.trace = s.trace ++ new ∧
        sleepMark ∉ new ∧ Event.lightSleepStart ∉ new := by
  intro ins
  induction ins with
  | nil => intro s _; exact ⟨s, [], rfl, by simp, by simp, by simp⟩
  | cons inp rest ih =>
    intro s h
    obtain ⟨hb, hle, hlt⟩ := h inp (List.mem_cons_self _ _)
    obtain ⟨hl, _⟩ := loop_pressed inp fuel s hb hle hlt
    obtain ⟨ht, hm1, hm2⟩ := tick_trace inp s
    obtain ⟨s', new, hr, htr, hn1, hn2⟩ :=
      ih (emit (.delay PUBLISH_INTERVAL_MS) (tickState inp s))
        (fun i hi => h i (List.mem_cons_of_mem _ hi))
    refine ⟨s', (tickEvents inp s.bleConnected ++ [.delay PUBLISH_INTERVAL_MS]) ++ new, ?_, ?_,
      ?_, ?_⟩
    · simp only [run, hl, hr]
    · rw [htr, ht, List.append_assoc]
    · intro hmem
      rcases List.mem_append.1 hmem with h1 | h1
      · exact hm1 h1
      · exact hn1 h1
    · intro hmem
      rcases List.mem_append.1 hmem with h1 | h1
      · exact hm2 h1
      · exact hn2 h1

theorem ordered_le : ∀ (ins : List TickInput) (t0 tEnd : Nat),
    ordered t0 ins tEnd = true → t0 ≤ tEnd := by
  intro ins
  induction ins with
  | nil => intro t0 tEnd h; simpa [ordered] using h
  | cons inp rest ih =>
    intro t0 tEnd h
    simp only [ordered, Bool.and_eq_true, decide_eq_true_eq] at h
    have := ih _ _ h.2
    omega

theorem ordered_mono : ∀ (ins : List TickInput) (t0 t1 tEnd : Nat), t1 ≤ t0 →
    ordered t0 ins tEnd = true → ordered t1 ins tEnd = true := by
  intro ins
  cases ins with
  | nil =>
    intro t0 t1 tEnd h1 h
    simp only [ordered, decide_eq_true_eq] at *
    omega
  | cons inp rest =>
    intro t0 t1 tEnd h1 h
    simp only [ordered, Bool.and_eq_true, decide_eq_true_eq] at *
    exact ⟨⟨⟨by omega, h.1.1.2⟩, h.1.2⟩, h.2⟩

theorem millis_le_of_same_epoch (t0 t1 : Nat) (hle : t0 ≤ t1)
    (hep : t1 / 2 ^ 32 = t0 / 2 ^ 32) : millis t0 ≤ millis t1 := by
  simp only [millis, ULONG_RANGE] at *
  norm_num at *
  omega

theorem same_epoch_between (t0 t1 t2 : Nat) (h1 : t0 ≤ t1) (h2 : t1 ≤ t2)
    (hep : t2 / 2 ^ 32 = t0 / 2 ^ 32) : t1 / 2 ^ 32 = t0 / 2 ^ 32 ∧ t2 / 2 ^ 32 = t1 / 2 ^ 32 := by
  norm_num at *
  omega

/-- One iteration: both writes of `_wakeMillis` store the `millis()` value of a real
time between the one it held and the resume time. -/
theorem loop_wakeMillis (inp : TickInput) (fuel : Nat) (s : State) (t0 : Nat)
    (hs : s._wakeMillis = millis t0) (h1 : t0 ≤ inp.stampTime)
    (h2 : inp.stampTime ≤ inp.checkTime) (h3 : inp.checkTime ≤ inp.sleep.resumeTime) :
    (∃ t1, t0 ≤ t1 ∧ t1 ≤ inp.stampTime ∧ (tickState inp s)._wakeMillis = millis t1) ∧
    (∃ t2, t0 ≤ t2 ∧ t2 ≤ inp.sleep.resumeTime ∧
      (loop inp fuel s).state._wakeMillis = millis t2) ∧
    ((loop inp fuel s).state._wakeMillis = (tickState inp s)._wakeMillis ∨
      (loop inp fuel s).state._wakeMillis = millis inp.sleep.resumeTime) := by
  have ht : ∃ t1, t0 ≤ t1 ∧ t1 ≤ inp.stampTime ∧ (tickState inp s)._wakeMillis = millis t1 := by
    cases hb : inp.button
    · exact ⟨inp.stampTime, h1, le_refl _, by simp [tickState, hb]⟩
    · exact ⟨t0, le_refl _, h1, by simp [tickState, hb, hs]⟩
  have hor : (loop inp fuel s).state._wakeMillis = (tickState inp s)._wakeMillis ∨
      (loop inp fuel s).state._wakeMillis = millis inp.sleep.resumeTime := by
    rw [loop_eq]
    split
    · exact goToSleep_wakeMillis inp.sleep fuel (tickState inp s)
    · exact Or.inl rfl
  refine ⟨ht, ?_, hor⟩
  obtain ⟨t1, ha, hb, hc⟩ := ht
  rcases hor with h | h
  · exact ⟨t1, ha, by omega, by rw [h, hc]⟩
  · exact ⟨inp.sleep.resumeTime, by omega, le_refl _, h⟩

theorem run_wakeMillis (fuel : Nat) :
    ∀ (ins : List TickInput) (s : State) (t0 tEnd : Nat), s._wakeMillis = millis t0 →
      ordered t0 ins tEnd = true →
      ∃ t1, t0 ≤ t1 ∧ t1 ≤ tEnd ∧ (run fuel ins s).state._wakeMillis = millis t1 := by
  intro ins
  induction ins with
  | nil =>
    intro s t0 tEnd hs ho
    exact ⟨t0, le_refl _, ordered_le [] _ _ ho, by simpa [run, Outcome.state] using hs⟩
  | cons inp rest ih =>
    intro s t0 tEnd hs ho
    have ho2 := ho
    simp only [ordered, Bool.and_eq_true, decide_eq_true_eq] at ho2
    obtain ⟨⟨⟨h1, h2⟩, h3⟩, h4⟩ := ho2
    obtain ⟨_, ⟨t2, ha, hb, hc⟩, _⟩ := loop_wakeMillis inp fuel s t0 hs h1 h2 h3
    have hend := ordered_le rest _ _ h4
    cases hl : loop inp fuel s with
    | blocked s1 =>
      rw [hl] at hc
      exact ⟨t2, ha, by omega, by simpa [run, hl, Outcome.state] using hc⟩
    | returned s1 =>
      rw [hl] at hc
      obtain ⟨t3, hd, he, hf⟩ := ih s1 t2 tEnd (by simpa [Outcome.state] using hc)
        (ordered_mono rest _ t2 tEnd hb h4)
      exact ⟨t3, by omega, he, by simpa [run, hl] using hf⟩

/-- An iteration whose `millis()` reads return real time `t < 2 ^ 32` and that finds
less than 30000 ms elapsed, or the button pressed, does not call `goToSleep`. -/
theorem loop_instant (inp : TickInput) (fuel : Nat) (s : State)
    (hst : inp.stampTime = inp.checkTime) (hsmall : inp.checkTime < 2 ^ 32)
    (hstart : s._wakeMillis ≤ inp.checkTime)
    (h : inp.button = .LOW ∨ inp.checkTime < s._wakeMillis + 30000) :
    loop inp fuel s = .returned (emit (.delay PUBLISH_INTERVAL_MS) (tickState inp s)) ∧
    (emit (.delay PUBLISH_INTERVAL_MS) (tickState inp s))._wakeMillis =
      (if inp.button = .LOW then inp.checkTime else s._wakeMillis) := by
  have hm : millis inp.checkTime = inp.checkTime := by
    simp only [millis, ULONG_RANGE]
    exact Nat.mod_eq_of_lt hsmall
  by_cases hb : inp.button = .LOW
  · refine ⟨(loop_pressed inp fuel s hb (le_of_eq hst) (by omega)).1, ?_⟩
    simp [emit, tickState, hb, hst, hm]
  · have hlt : inp.checkTime < s._wakeMillis + 30000 := h.resolve_left hb
    have hw : (tickState inp s)._wakeMillis = s._wakeMillis := by simp [tickState, hb]
    have hms : millis s._wakeMillis = s._wakeMillis := by
      simp only [millis, ULONG_RANGE]
      exact Nat.mod_eq_of_lt (by omega)
    refine ⟨?_, by simp [emit, tickState, hb]⟩
    rw [loop_eq, hw]
    have := ulongSub_millis s._wakeMillis inp.checkTime hstart
      (by simp only [ULONG_RANGE]; omega)
    rw [hms] at this
    rw [this, if_neg (by simp only [ACTIVE_WINDOW_MS]; omega)]

/-- The press scenario: the window is at `start`, the button is down exactly during
`[10000, 40000]`, the iterations are instantaneous and in increasing time order, one of
them (not yet run unless `L ≤ start`) is at time `L` within the press, and all are
before `L + 30000`.  Then no iteration calls `goToSleep`. -/
theorem run_press_scenario (fuel L : Nat) (hL1 : 10000 ≤ L) (hL2 : L ≤ 40000) :
    ∀ (ins : List TickInput) (s : State),
      ins.Pairwise (fun a b => a.checkTime + 2000 ≤ b.checkTime) →
      (∀ inp ∈ ins, inp.stampTime = inp.checkTime ∧
        (inp.button = .LOW ↔ 10000 ≤ inp.checkTime ∧ inp.checkTime ≤ 40000)) →
      (∀ inp ∈ ins, inp.checkTime < L + 30000) →
      (∀ inp ∈ ins, s._wakeMillis ≤ inp.checkTime) →
      (((∃ inp ∈ ins, inp.checkTime = L) ∧ (s._wakeMillis = 0 ∨ 10000 ≤ s._wakeMillis)) ∨
        L ≤ s._wakeMillis) →
      ∃ s' new, run fuel ins s = .returned s' ∧ s'.trace = s.trace ++ new ∧
        sleepMark ∉ new ∧ Event.lightSleepStart ∉ new := by
  intro ins
  induction ins with
  | nil => intro s _ _ _ _ _; exact ⟨s, [], rfl, by simp, by simp, by simp⟩
  | cons inp rest ih =>
    intro s hpair hrule hbound hstart hphase
    obtain ⟨hst, hbtn⟩ := hrule inp (List.mem_cons_self _ _)
    have hb := hbound inp (List.mem_cons_self _ _)
    have hs0 := hstart inp (List.mem_cons_self _ _)
    rw [List.pairwise_cons] at hpair
    have hcond : inp.button = .LOW ∨ inp.checkTime < s._wakeMillis + 30000 := by
      by_cases hp : 10000 ≤ inp.checkTime ∧ inp.checkTime ≤ 40000
      · exact Or.inl (hbtn.2 hp)
      · right
        rcases hphase with ⟨⟨i, hi, hiL⟩, hz⟩ | hB
        · rcases List.mem_cons.1 hi with rfl | hi2
          · omega
          · have := hpair.1 i hi2
            omega
        · omega
    obtain ⟨hl, hw⟩ := loop_instant inp fuel s hst (by omega) hs0 hcond
    obtain ⟨ht, hm1, hm2⟩ := tick_trace inp s
    have hphase2 : ((∃ i ∈ rest, i.checkTime = L) ∧
        ((emit (.delay PUBLISH_INTERVAL_MS) (tickState inp s))._wakeMillis = 0 ∨
          10000 ≤ (emit (.delay PUBLISH_INTERVAL_MS) (tickState inp s))._wakeMillis)) ∨
        L ≤ (emit (.delay PUBLISH_INTERVAL_MS) (tickState inp s))._wakeMillis := by
      rw [hw]
      by_cases hp : inp.button = .LOW
      · have hr := hbtn.1 hp
        rw [if_pos hp]
        rcases hphase with ⟨⟨i, hi, hiL⟩, _⟩ | hB
        · rcases List.mem_cons.1 hi with rfl | hi2
          · exact Or.inr (le_of_eq hiL.symm)
          · exact Or.inl ⟨⟨i, hi2, hiL⟩, Or.inr hr.1⟩
        · exact Or.inr (le_trans hB hs0)
      · rw [if_neg hp]
        rcases hphase with ⟨⟨i, hi, hiL⟩, hz⟩ | hB
        · rcases List.mem_cons.1 hi with rfl | hi2
          · exact absurd (hbtn.2 ⟨by omega, by omega⟩) hp
          · exact Or.inl ⟨⟨i, hi2, hiL⟩, hz⟩
        · exact Or.inr hB
    have hstart2 : ∀ i ∈ rest,
        (emit (.delay PUBLISH_INTERVAL_MS) (tickState inp s))._wakeMillis ≤ i.checkTime := by
      intro i hi
      rw [hw]
      have h1 := hpair.1 i hi
      have h2 := hstart i (List.mem_cons_of_mem _ hi)
      split <;> omega
    obtain ⟨s', new, hr, htr, hn1, hn2⟩ :=
      ih (emit (.delay PUBLISH_INTERVAL_MS) (tickState inp s)) hpair.2
        (fun i hi => hrule i (List.mem_cons_of_mem _ hi))
        (fun i hi => hbound i (List.mem_cons_of_mem _ hi)) hstart2 hphase2
    refine ⟨s', (tickEvents inp s.bleConnected ++ [.delay PUBLISH_INTERVAL_MS]) ++ new, ?_, ?_,
      ?_, ?_⟩
    · simp only [run, hl, hr]
    · rw [htr, ht, List.append_assoc]
    · intro hmem
      rcases List.mem_append.1 hmem with h1 | h1
      · exact hm1 h1
      · exact hn1 h1
    · intro hmem
      rcases List.mem_append.1 hmem with h1 | h1
      · exact hm2 h1
      · exact hn2 h1

/-! ## Lemmas on formatting -/

theorem digitChar_props (d : Nat) :
    (digitChar d).isDigit = true ∧ digitVal (digitChar d) = d % 10 := by
  have h : ∀ i : Fin 10, (Char.ofNat (48 + i.val)).isDigit = true ∧
      digitVal (Char.ofNat (48 + i.val)) = i.val := by decide
  exact h ⟨d % 10, Nat.mod_lt _ (by decide)⟩

theorem natDigitsAux_acc : ∀ (fuel n : Nat) (acc : List Char),
    natDigitsAux fuel n acc = natDigitsAux fuel n [] ++ acc := by
  intro fuel
  induction fuel with
  | zero => intro n acc; simp [natDigitsAux]
  | succ f ih =>
    intro n acc
    by_cases h : n / 10 = 0
    · simp [natDigitsAux, h]
    · simp only [natDigitsAux, h, if_false]
      rw [ih (n / 10) (digitChar n :: acc), ih (n / 10) [digitChar n]]
      simp

theorem natDigitsAux_fuel : ∀ (f1 f2 n : Nat) (acc : List Char), n < f1 → n < f2 →
    natDigitsAux f1 n acc = natDigitsAux f2 n acc := by
  intro f1
  induction f1 with
  | zero => intro f2 n acc h; omega
  | succ f ih =>
    intro f2 n acc h1 h2
    obtain ⟨g, rfl⟩ : ∃ g, f2 = g + 1 := ⟨f2 - 1, by omega⟩
    by_cases h : n / 10 = 0
    · simp [natDigitsAux, h]
    · simp only [natDigitsAux, h, if_false]
      exact ih g (n / 10) _ (by omega) (by omega)

theorem natDigits_lt_ten (n : Nat) (h : n < 10) : natDigits n = [digitChar n] := by
  have : n / 10 = 0 := by omega
  simp [natDigits, natDigitsAux, this]

theorem natDigits_ge_ten (n : Nat) (h : 10 ≤ n) :
    natDigits n = natDigits (n / 10) ++ [digitChar n] := by
  have h0 : ¬ n / 10 = 0 := by omega
  unfold natDigits
  rw [natDigitsAux, if_neg h0, natDigitsAux_acc,
    natDigitsAux_fuel n (n / 10 + 1) (n / 10) [] (by omega) (by omega)]

theorem parseNat_append (xs : List Char) (c : Char) :
    parseNat (xs ++ [c]) = 10 * parseNat xs + digitVal c := by
  simp [parseNat, List.foldl_append]

theorem natDigits_spec (n : Nat) :
    (∀ c ∈ natDigits n, c.isDigit = true) ∧ natDigits n ≠ [] ∧ parseNat (natDigits n) = n := by
  induction n using Nat.strong_induction_on with
  | _ n ih =>
    by_cases h : n < 10
    · rw [natDigits_lt_ten n h]
      refine ⟨?_, by simp, ?_⟩
      · intro c hc
        rw [List.mem_singleton.1 hc]
        exact (digitChar_props n).1
      · simp [parseNat, (digitChar_props n).2]
        omega
    · obtain ⟨h1, h2, h3⟩ := ih (n / 10) (by omega)
      rw [natDigits_ge_ten n (by omega)]
      refine ⟨?_, by simp, ?_⟩
      · intro c hc
        rcases List.mem_append.1 hc with hc | hc
        · exact h1 c hc
        · rw [List.mem_singleton.1 hc]
          exact (digitChar_props n).1
      · rw [parseNat_append, h3, (digitChar_props n).2]
        omega

theorem natDigits_length (k : Nat) : ∀ n, n < 10 ^ (k + 1) → (natDigits n).length ≤ k + 1 := by
  induction k with
  | zero =>
    intro n h
    rw [natDigits_lt_ten n (by simpa using h)]
    simp
  | succ k ih =>
    intro n h
    by_cases h10 : n < 10
    · rw [natDigits_lt_ten n h10]
      simp
    · rw [natDigits_ge_ten n (by omega)]
      have : n / 10 < 10 ^ (k + 1) := by
        rw [Nat.div_lt_iff_lt_mul (by decide)]
        rw [pow_succ] at h
        exact h
      have := ih (n / 10) this
      simp
      omega

theorem skipDigits_append (ds rest : List Char) (h : ∀ c ∈ ds, c.isDigit = true) :
    skipDigits (ds ++ '.' :: rest) = '.' :: rest := by
  induction ds with
  | nil => simp [skipDigits]
  | cons d ds ih =>
    have hd := h d (List.mem_cons_self _ _)
    simp only [List.cons_append, skipDigits, hd, if_true]
    exact ih (fun c hc => h c (List.mem_cons_of_mem _ hc))

theorem takeWhile_digits (ds rest : List Char) (h : ∀ c ∈ ds, c.isDigit = true) :
    (ds ++ '.' :: rest).takeWhile Char.isDigit = ds ∧
    (ds ++ '.' :: rest).dropWhile Char.isDigit = '.' :: rest := by
  induction ds with
  | nil => constructor <;> simp [List.takeWhile, List.dropWhile]
  | cons d ds ih =>
    have hd := h d (List.mem_cons_self _ _)
    have := ih (fun c hc => h c (List.mem_cons_of_mem _ hc))
    simp [List.takeWhile, List.dropWhile, hd, this]

theorem unsignedPart_of_digit (c : Char) (cs : List Char) (h : c.isDigit = true) :
    unsignedPart (c :: cs) = c :: cs := by
  unfold unsignedPart
  split
  · rename_i heq
    simp only [List.cons.injEq] at heq
    rw [heq.1] at h
    exact absurd h (by decide)
  · rfl

theorem CFloat.den_pos (w : CFloat) : 0 < w.den := by
  unfold CFloat.den
  positivity

theorem roundHalfEven_near (N D : Nat) (hD : 0 < D) :
    |(roundHalfEven N D : ℚ) - (N : ℚ) / (D : ℚ)| ≤ 1 / 2 := by
  have hDq : (0 : ℚ) < D := by exact_mod_cast hD
  have hN : (N : ℚ) = (D : ℚ) * ((N / D : ℕ) : ℚ) + ((N % D : ℕ) : ℚ) := by
    exact_mod_cast (Nat.div_add_mod N D).symm
  have hm : ((N % D : ℕ) : ℚ) < D := by exact_mod_cast Nat.mod_lt N hD
  have hm0 : (0 : ℚ) ≤ ((N % D : ℕ) : ℚ) := by positivity
  have key : ∀ r : ℚ, |r * D - N| ≤ D / 2 → |r - (N : ℚ) / D| ≤ 1 / 2 := by
    intro r hr
    have : r - (N : ℚ) / D = (r * D - N) / D := by field_simp
    rw [this, abs_div, abs_of_pos hDq, div_le_iff₀ hDq]
    linarith
  apply key
  unfold roundHalfEven
  simp only
  split_ifs with h1 h2 h3
  · have h1q : (2 : ℚ) * ((N % D : ℕ) : ℚ) < D := by exact_mod_cast h1
    rw [abs_le]
    constructor <;> linarith
  · have h2q : (D : ℚ) < 2 * ((N % D : ℕ) : ℚ) := by exact_mod_cast h2
    push_cast
    rw [abs_le]
    constructor <;> linarith
  · have h4 : 2 * (N % D) = D := by omega
    have h4q : (2 : ℚ) * ((N % D : ℕ) : ℚ) = D := by exact_mod_cast h4
    rw [abs_le]
    constructor <;> linarith
  · have h4 : 2 * (N % D) = D := by omega
    have h4q : (2 : ℚ) * ((N % D : ℕ) : ℚ) = D := by exact_mod_cast h4
    push_cast
    rw [abs_le]
    constructor <;> linarith

theorem formatF2_reads_back (w : CFloat) :
    matchesPattern (formatF2 w) = true ∧
    parseDecimal (formatF2 w) =
      some ((if w.neg then -1 else 1) * ((w.hundredths : ℚ) / 100)) := by
  obtain ⟨hdig, hne, hval⟩ := natDigits_spec (w.hundredths / 100)
  obtain ⟨d, ds, hds⟩ : ∃ d ds, natDigits (w.hundredths / 100) = d :: ds := by
    cases h : natDigits (w.hundredths / 100) with
    | nil => exact absurd h hne
    | cons d ds => exact ⟨d, ds, rfl⟩
  have hd : d.isDigit = true := hdig d (by rw [hds]; exact List.mem_cons_self _ _)
  have hdsd : ∀ c ∈ ds, c.isDigit = true :=
    fun c hc => hdig c (by rw [hds]; exact List.mem_cons_of_mem _ hc)
  have hbody : unsignedPart (formatF2 w) =
      d :: (ds ++ ['.', digitChar (w.hundredths / 10), digitChar w.hundredths]) := by
    unfold formatF2
    rw [hds]
    cases w.neg
    · simpa using unsignedPart_of_digit d _ hd
    · simp [unsignedPart]
  have hhead : (formatF2 w).head? = some '-' ↔ w.neg = true := by
    unfold formatF2
    rw [hds]
    cases w.neg
    · simp only [Bool.false_eq_true, if_false, List.nil_append, List.cons_append,
        List.head?_cons, Option.some.injEq, iff_false]
      intro h
      rw [h] at hd
      exact absurd hd (by decide)
    · simp
  have hmatch : matchesPattern (formatF2 w) = true := by
    unfold matchesPattern
    rw [hbody]
    simp only [hd, Bool.true_and]
    rw [skipDigits_append ds _ hdsd]
    simp [(digitChar_props _).1]
  refine ⟨hmatch, ?_⟩
  have htake := takeWhile_digits (d :: ds)
    [digitChar (w.hundredths / 10), digitChar w.hundredths]
    (by intro c hc; rw [← hds] at hc; exact hdig c hc)
  have hfrac : parseNat [digitChar (w.hundredths / 10), digitChar w.hundredths]
      = w.hundredths % 100 := by
    simp only [parseNat, List.foldl_cons, List.foldl_nil, (digitChar_props _).2]
    omega
  have hsplit : ((w.hundredths / 100 : ℕ) : ℚ) + ((w.hundredths % 100 : ℕ) : ℚ) / 100
      = (w.hundredths : ℚ) / 100 := by
    have h := Nat.div_add_mod w.hundredths 100
    have hq : (w.hundredths : ℚ) =
        100 * ((w.hundredths / 100 : ℕ) : ℚ) + ((w.hundredths % 100 : ℕ) : ℚ) := by
      exact_mod_cast h.symm
    rw [hq]
    ring
  unfold parseDecimal
  rw [if_pos hmatch, hbody]
  simp only [List.cons_append] at htake
  simp only [List.cons_append, htake.1, htake.2, List.drop_succ_cons, List.drop_zero]
  rw [← hds, hval, hfrac, hsplit]
  by_cases hn : w.neg = true
  · simp [hhead.2 hn, hn]
  · have : ¬ (formatF2 w).head? = some '-' := fun h => hn (hhead.1 h)
    simp [this, hn]

theorem formatF2_near (w : CFloat) :
    |(if w.neg then -1 else 1) * ((w.hundredths : ℚ) / 100) - w.toRat| ≤ 5 / 1000 := by
  have h := roundHalfEven_near (100 * w.num) w.den w.den_pos
  have hDq : (0 : ℚ) < w.den := by exact_mod_cast w.den_pos
  have e : ((100 * w.num : ℕ) : ℚ) / w.den = 100 * ((w.num : ℚ) / w.den) := by
    push_cast
    ring
  rw [e] at h
  have hh : (roundHalfEven (100 * w.num) w.den : ℚ) = (w.hundredths : ℚ) := rfl
  rw [hh] at h
  rw [abs_le] at h ⊢
  unfold CFloat.toRat
  cases w.neg <;> simp <;> constructor <;> linarith [h.1, h.2]

theorem hundredths_lt (w : CFloat) (M : Nat)
    (h : (w.num : ℚ) / w.den < (M : ℚ) / 100 - 5 / 1000) : w.hundredths < M := by
  have hr := roundHalfEven_near (100 * w.num) w.den w.den_pos
  have e : ((100 * w.num : ℕ) : ℚ) / w.den = 100 * ((w.num : ℚ) / w.den) := by
    push_cast
    ring
  rw [e, abs_le] at hr
  have hh : (roundHalfEven (100 * w.num) w.den : ℚ) = (w.hundredths : ℚ) := rfl
  rw [hh] at hr
  have : (w.hundredths : ℚ) < (M : ℚ) := by linarith [hr.2]
  exact_mod_cast this

theorem formatF2_length (w : CFloat) :
    (formatF2 w).length =
      (if w.neg then 1 else 0) + (natDigits (w.hundredths / 100)).length + 3 := by
  unfold formatF2
  cases w.neg
  · simp
  · simp
    omega

theorem formatF2_fits (w : CFloat) (hlo : -(9999999995 : ℚ) / 1000 < w.toRat)
    (hhi : w.toRat < (99999999995 : ℚ) / 1000) : (formatF2 w).length ≤ 11 := by
  rw [formatF2_length]
  unfold CFloat.toRat at hlo hhi
  cases hn : w.neg
  · rw [hn] at hhi
    have h1 : w.hundredths < 10000000000 := by
      apply hundredths_lt
      norm_num at hhi ⊢
      linarith
    have h2 := natDigits_length 7 (w.hundredths / 100) (by norm_num; omega)
    simp
    omega
  · rw [hn] at hlo
    have h1 : w.hundredths < 1000000000 := by
      apply hundredths_lt
      norm_num at hlo ⊢
      linarith
    have h2 := natDigits_length 6 (w.hundredths / 100) (by norm_num; omega)
    simp
    omega

theorem formatF2_zero (w : CFloat) (hn : w.neg = false) (hm : w.mant = 0) :
    formatF2 w = ['0', '.', '0', '0'] := by
  have hd := w.den_pos
  have h0 : w.hundredths = 0 := by
    simp [CFloat.hundredths, CFloat.num, roundHalfEven, hm, hd]
  unfold formatF2
  rw [h0, hn]
  decide

theorem twelveKg_toRat : twelveKg.toRat = 12345 / 1024 := by
  have h1 : twelveKg.num = 12345 := by decide
  have h2 : twelveKg.den = 1024 := by decide
  have h3 : twelveKg.neg = false := rfl
  simp [CFloat.toRat, h1, h2, h3]

/-! ## C1: suspension only after an observed release -/

/-- C1. In `goToSleep`, for every sequence of button samples: while all samples read so
far are pressed (`LOW`), the call is still in the release-wait loop and no suspend call
has been made; and when sample `k` is the first released (`HIGH`) one, the call returns,
and what it did is the pre-sleep screen, `k` pressed samples each followed by
`delay(10)`, the released sample, exactly one `delay(50)`, the arming of the timer and
the GPIO wake sources, and only then `esp_light_sleep_start`.  Nothing before the
released sample suspends, arms a wake source or is a 50 ms delay, and no sample is
taken and no suspend call made afterwards. -/
theorem goToSleep_suspends_only_after_release (inp : SleepInput) (fuel : Nat) (s : State) :
    ((∀ j, j < fuel → inp.samples j = .LOW) →
      ∃ s', goToSleep inp fuel s = .blocked s' ∧
        s'.trace = s.trace ++ (sleepScreen ++ spin fuel) ∧
        Event.lightSleepStart ∉ sleepScreen ++ spin fuel) ∧
    (∀ k, k < fuel → inp.samples k = .HIGH → (∀ j, j < k → inp.samples j = .LOW) →
      ∃ s', goToSleep inp fuel s = .returned s' ∧
        s'.trace = s.trace ++ (sleepScreen ++ spin k) ++
          [.digitalRead WAKEUP_CONFIG_PIN .HIGH, .delay 50,
           .timerWakeup SLEEP_DURATION_US,
           .gpioWakeupEnable WAKEUP_CONFIG_PIN GPIO_INTR_LOW_LEVEL,
           .enableGpioWakeup, .lightSleepStart] ++ resumeEvents inp ∧
        (∀ e ∈ sleepScreen ++ spin k,
          e ≠ .lightSleepStart ∧ e.isArm = false ∧ e ≠ .delay 50) ∧
        (∀ e ∈ resumeEvents inp, e ≠ .lightSleepStart ∧ e.isSample = false)) := by
  have hpre : ∀ n, ∀ e ∈ sleepScreen ++ spin n,
      e ≠ .lightSleepStart ∧ e.isArm = false ∧ e ≠ .delay 50 := by
    intro n e he
    rcases List.mem_append.1 he with h | h
    · exact sleepScreen_inert e h
    · rcases mem_spin h with rfl | rfl <;> decide
  refine ⟨fun hlow => ?_, fun k hk hhigh hlow => ?_⟩
  · refine ⟨_, goToSleep_blocked inp fuel s hlow, rfl, fun hmem => ?_⟩
    exact (hpre fuel _ hmem).1 rfl
  · refine ⟨_, goToSleep_returned inp k fuel s hk hhigh hlow, ?_, hpre k, ?_⟩
    · simp [armAndResume_eq, emits, armEvents, List.append_assoc]
    · intro e he
      unfold resumeEvents at he
      by_cases hc : inp.cause = .gpio
      · simp only [hc, if_true, List.mem_append, List.mem_cons, List.mem_singleton,
          List.not_mem_nil, or_false] at he
        rcases he with (rfl | rfl | rfl | rfl | rfl) | h
        · decide
        · exact ⟨by simp, rfl⟩
        · decide
        · decide
        · exact ⟨by simp, rfl⟩
        · exact showWakeupScreen_inert e h
      · simp only [hc, if_false, List.mem_append, List.mem_cons, List.mem_singleton,
          List.not_mem_nil, or_false] at he
        rcases he with rfl | rfl | rfl | rfl | rfl
        · decide
        · exact ⟨by simp, rfl⟩
        · decide
        · decide
        · exact ⟨by simp, rfl⟩

/-- C1 at a concrete input: two pressed samples, then a released one. -/
theorem goToSleep_suspends_only_after_release_witness :
    ∃ s', goToSleep exampleSleep 5 exampleState = .returned s' ∧
      s'.trace = exampleState.trace ++ (sleepScreen ++ spin 2) ++
        [.digitalRead WAKEUP_CONFIG_PIN .HIGH, .delay 50,
         .timerWakeup SLEEP_DURATION_US,
         .gpioWakeupEnable WAKEUP_CONFIG_PIN GPIO_INTR_LOW_LEVEL,
         .enableGpioWakeup, .lightSleepStart] ++ resumeEvents exampleSleep :=
  let ⟨s', h, ht, _⟩ := (goToSleep_suspends_only_after_release exampleSleep 5 exampleState).2 2
    (by decide) (by decide) (by decide)
  ⟨s', h, ht⟩

/-! ## C2: a held button takes priority over expiry -/

/-- C2. For every state, however old its window: an iteration of `loop` that reads the
button pressed and whose two `millis()` reads are less than 30000 ms apart sets
`_wakeMillis` to the `millis()` value of now, returns after `delay(PUBLISH_INTERVAL_MS)`
and makes no call of `goToSleep`.  Hence a run of any number of such iterations returns
and its trace holds no call of `goToSleep` and no suspend call. -/
theorem button_held_defers_sleep (fuel : Nat) (s : State) :
    (∀ inp : TickInput, inp.button = .LOW → inp.stampTime ≤ inp.checkTime →
      inp.checkTime - inp.stampTime < 30000 →
      ∃ s', loop inp fuel s = .returned s' ∧
        s'._wakeMillis = millis inp.stampTime ∧
        s'.trace = s.trace ++ (tickEvents inp s.bleConnected ++ [.delay PUBLISH_INTERVAL_MS]) ∧
        sleepMark ∉ tickEvents inp s.bleConnected ++ [.delay PUBLISH_INTERVAL_MS] ∧
        Event.lightSleepStart ∉ tickEvents inp s.bleConnected ++ [.delay PUBLISH_INTERVAL_MS]) ∧
    (∀ ins : List TickInput,
      (∀ inp ∈ ins, inp.button = .LOW ∧ inp.stampTime ≤ inp.checkTime ∧
        inp.checkTime - inp.stampTime < 30000) →
      ∃ s' new, run fuel ins s = .returned s' ∧ s'.trace = s.trace ++ new ∧
        sleepMark ∉ new ∧ Event.lightSleepStart ∉ new) := by
  refine ⟨fun inp hb hle hlt => ?_, fun ins => run_all_pressed fuel ins s⟩
  obtain ⟨hl, hw⟩ := loop_pressed inp fuel s hb hle hlt
  obtain ⟨ht, hm1, hm2⟩ := tick_trace inp s
  exact ⟨_, hl, by simpa [emit] using hw, ht, hm1, hm2⟩

/-- C2 at a concrete input: the window of the state is 4294940 s old and the button
is read pressed. -/
theorem button_held_defers_sleep_witness :
    ∃ s', loop (heldTick 4294952296) 5 exampleState = .returned s' ∧
      s'._wakeMillis = 4294952296 :=
  let ⟨s', h, hw, _⟩ := (button_held_defers_sleep 5 exampleState).1 (heldTick 4294952296)
    (by decide) (by decide) (by decide)
  ⟨s', h, by rw [hw]; decide⟩

/-! ## C3: monotonicity of the window start -/

/-- C3, as stated, fails: two consecutive button-held iterations 2000 ms apart, the
first 1000 ms before the `millis()` counter wraps and the second 1000 ms after it; the
first stores 4294966296 in `_wakeMillis`, the second stores 1000. -/
theorem wakeMillis_decreases_across_wrap :
    (heldTick 4294966296).button = .LOW ∧ (heldTick 4294968296).button = .LOW ∧
    (run 1 [heldTick 4294966296] exampleState).state._wakeMillis = 4294966296 ∧
    (run 1 [heldTick 4294966296, heldTick 4294968296] exampleState).state._wakeMillis = 1000 ∧
    ¬ (4294966296 ≤ 1000) := by
  decide

/-- C3, amended. `_wakeMillis` always holds the `millis()` value of a real time that
never decreases: if it holds that of `t0` and the reads of an iteration of `loop` are
made in order at real times from `t0` on, then the write in `loop` (button pressed) and
the write in `goToSleep` (after resuming) each store the `millis()` value of a real time
no earlier than the one held before; and as long as the 32-bit counter does not wrap
between `t0` and the last read, each write stores a value greater than or equal to the
value held before.  The same holds along a run of any number of iterations, whatever
the button reads. -/
theorem wakeMillis_nondecreasing_without_wrap (fuel : Nat) (s : State) (t0 : Nat)
    (hs : s._wakeMillis = millis t0) :
    (∀ inp : TickInput, t0 ≤ inp.stampTime → inp.stampTime ≤ inp.checkTime →
      inp.checkTime ≤ inp.sleep.resumeTime →
      (∃ t1 t2, t0 ≤ t1 ∧ t1 ≤ t2 ∧ t2 ≤ inp.sleep.resumeTime ∧
        (tickState inp s)._wakeMillis = millis t1 ∧
        (loop inp fuel s).state._wakeMillis = millis t2) ∧
      (inp.sleep.resumeTime / 2 ^ 32 = t0 / 2 ^ 32 →
        s._wakeMillis ≤ (tickState inp s)._wakeMillis ∧
        (tickState inp s)._wakeMillis ≤ (loop inp fuel s).state._wakeMillis)) ∧
    (∀ (ins : List TickInput) (tEnd : Nat), ordered t0 ins tEnd = true →
      (∃ t1, t0 ≤ t1 ∧ t1 ≤ tEnd ∧ (run fuel ins s).state._wakeMillis = millis t1) ∧
      (tEnd / 2 ^ 32 = t0 / 2 ^ 32 → s._wakeMillis ≤ (run fuel ins s).state._wakeMillis)) := by
  refine ⟨fun inp h1 h2 h3 => ?_, fun ins tEnd ho => ?_⟩
  · obtain ⟨⟨t1, ha, hb, hc⟩, ⟨t2, hd, he, hf⟩, hor⟩ := loop_wakeMillis inp fuel s t0 hs h1 h2 h3
    have key : ∃ t1 t2, t0 ≤ t1 ∧ t1 ≤ t2 ∧ t2 ≤ inp.sleep.resumeTime ∧
        (tickState inp s)._wakeMillis = millis t1 ∧
        (loop inp fuel s).state._wakeMillis = millis t2 := by
      rcases hor with h | h
      · exact ⟨t1, t1, ha, le_refl _, by omega, hc, by rw [h, hc]⟩
      · exact ⟨t1, inp.sleep.resumeTime, ha, by omega, le_refl _, hc, h⟩
    refine ⟨key, fun hep => ?_⟩
    obtain ⟨u1, u2, k1, k2, k3, k4, k5⟩ := key
    have e1 := same_epoch_between t0 u2 inp.sleep.resumeTime (by omega) k3 hep
    have e2 := same_epoch_between t0 u1 u2 k1 k2 e1.1
    rw [hs, k4, k5]
    exact ⟨millis_le_of_same_epoch t0 u1 k1 e2.1, millis_le_of_same_epoch u1 u2 k2 e2.2⟩
  · obtain ⟨t1, ha, hb, hc⟩ := run_wakeMillis fuel ins s t0 tEnd hs ho
    refine ⟨⟨t1, ha, hb, hc⟩, fun hep => ?_⟩
    rw [hs, hc]
    exact millis_le_of_same_epoch t0 t1 ha (same_epoch_between t0 t1 tEnd ha hb hep).1

/-- C3 (amended) at a concrete input: two button-held iterations at 20 s and 22 s
after a window start at 12 s. -/
theorem wakeMillis_nondecreasing_without_wrap_witness :
    exampleState._wakeMillis ≤
      (run 5 [heldTick 20000, heldTick 22000] exampleState).state._wakeMillis :=
  ((wakeMillis_nondecreasing_without_wrap 5 exampleState 12000 (by decide)).2
    [heldTick 20000, heldTick 22000] 500000 (by decide)).2 (by decide)

/-! ## C4: the window-expiry check -/

/-- C4. In an iteration of `loop` in which the button reads released, with the window
start `_wakeMillis` holding the `millis()` value of real time `start` and the expiry
check made at real time `checkTime`, `start ≤ checkTime < start + 2 ^ 32`: the window
start is left unchanged, the comparison the code makes, on the 32-bit difference, is the
comparison of the real elapsed time with `ACTIVE_WINDOW_MS` = 30000 (also when the
counter wrapped in between); if the elapsed time is at least 30000 ms the iteration is a
call of `goToSleep`, and otherwise it makes no call of `goToSleep` and ends with
`delay(PUBLISH_INTERVAL_MS)`, 2000 ms. -/
theorem loop_sleeps_iff_window_elapsed (inp : TickInput) (fuel : Nat) (s : State)
    (start : Nat) (hbtn : inp.button = .HIGH) (hstart : s._wakeMillis = millis start)
    (hle : start ≤ inp.checkTime) (hlt : inp.checkTime - start < 2 ^ 32) :
    ACTIVE_WINDOW_MS = 30000 ∧ PUBLISH_INTERVAL_MS = 2000 ∧
    (tickState inp s)._wakeMillis = s._wakeMillis ∧
    ulongSub (millis inp.checkTime) (tickState inp s)._wakeMillis = inp.checkTime - start ∧
    (30000 ≤ inp.checkTime - start →
      loop inp fuel s = goToSleep inp.sleep fuel (tickState inp s) ∧
      ∃ rest, (loop inp fuel s).state.trace =
        s.trace ++ tickEvents inp s.bleConnected ++ (sleepScreen ++ rest)) ∧
    (inp.checkTime - start < 30000 →
      loop inp fuel s = .returned (emit (.delay 2000) (tickState inp s)) ∧
      (loop inp fuel s).state.trace =
        s.trace ++ (tickEvents inp s.bleConnected ++ [.delay 2000]) ∧
      sleepMark ∉ tickEvents inp s.bleConnected ++ [.delay 2000]) := by
  have hw : (tickState inp s)._wakeMillis = s._wakeMillis := by simp [tickState, hbtn]
  have hsub : ulongSub (millis inp.checkTime) (tickState inp s)._wakeMillis
      = inp.checkTime - start := by
    rw [hw, hstart]
    exact ulongSub_millis start inp.checkTime hle hlt
  refine ⟨rfl, rfl, hw, hsub, fun h => ?_, fun h => ?_⟩
  · have hl : loop inp fuel s = goToSleep inp.sleep fuel (tickState inp s) := by
      rw [loop_eq, hsub, if_pos (by simpa [ACTIVE_WINDOW_MS] using h)]
    refine ⟨hl, ?_⟩
    obtain ⟨rest, hr⟩ := goToSleep_trace inp.sleep fuel (tickState inp s)
    exact ⟨rest, by rw [hl, hr]; simp [tickState]⟩
  · have hl : loop inp fuel s = .returned (emit (.delay 2000) (tickState inp s)) := by
      rw [loop_eq, hsub, if_neg (by simpa [ACTIVE_WINDOW_MS] using h)]
      rfl
    refine ⟨hl, by rw [hl]; simp [Outcome.state, emit, tickState], ?_⟩
    intro hmem
    rcases List.mem_append.1 hmem with h1 | h1
    · exact (sleepMark_not_mem_tickEvents inp s.bleConnected).1 h1
    · simp [sleepMark] at h1

/-- C4 at a concrete input where the counter wrapped: the window started 15 s before
the wrap and the check is made 20 s after it, so 35 s elapsed and `goToSleep` is
called. -/
theorem loop_sleeps_iff_window_elapsed_witness :
    loop wrapTick 5 wrapState = goToSleep wrapTick.sleep 5 (tickState wrapTick wrapState) :=
  ((loop_sleeps_iff_window_elapsed wrapTick 5 wrapState 4294952296 (by decide) (by decide)
    (by decide) (by decide)).2.2.2.2.1 (by decide)).1

/-! ## C5: the press scenario -/

set_option maxRecDepth 1000000 in
/-- C5, as stated, fails: with iterations every 3000 ms from t = 0 (at least 2000 ms
apart), a window started at t = 0 and the button down from 10 s to 40 s, the last
iteration that samples the button pressed is the one at 39 s; the iterations up to 66 s
do not call `goToSleep`, and the iteration at 69 s, before 70 s, does. -/
theorem press_scenario_sleeps_before_70s :
    (everyMs 3000 24).Pairwise (fun a b => a + 2000 ≤ b) ∧
    (∀ t ∈ everyMs 3000 24, t < 70000) ∧
    (setup 0 State.boot)._wakeMillis = 0 ∧
    sleepMark ∉ (run 1 ((everyMs 3000 23).map scenarioTick) (setup 0 State.boot)).state.trace ∧
    sleepMark ∈ (run 1 ((everyMs 3000 24).map scenarioTick) (setup 0 State.boot)).state.trace ∧
    Event.lightSleepStart ∈
      (run 1 ((everyMs 3000 24).map scenarioTick) (setup 0 State.boot)).state.trace := by
  decide

/-- C5, amended. A window started at t = 0 with the button down from 10 s to 40 s, and
any schedule of iterations at least 2000 ms apart: if an iteration is made at time `L`
within the press (so it samples the button pressed), then no iteration made before
`L + 30 s` calls `goToSleep`.  With an iteration at exactly 40 s this is 70 s. -/
theorem press_scenario_defers_sleep (fuel L : Nat) (ins : List TickInput) (s : State)
    (hstart : s._wakeMillis = 0)
    (hpair : ins.Pairwise (fun a b => a.checkTime + 2000 ≤ b.checkTime))
    (hrule : ∀ inp ∈ ins, inp.stampTime = inp.checkTime ∧
      (inp.button = .LOW ↔ 10000 ≤ inp.checkTime ∧ inp.checkTime ≤ 40000))
    (hL : ∃ inp ∈ ins, inp.checkTime = L) (hL1 : 10000 ≤ L) (hL2 : L ≤ 40000)
    (hbound : ∀ inp ∈ ins, inp.checkTime < L + 30000) :
    ∃ s' new, run fuel ins s = .returned s' ∧ s'.trace = s.trace ++ new ∧
      sleepMark ∉ new ∧ Event.lightSleepStart ∉ new :=
  run_press_scenario fuel L hL1 hL2 ins s hpair hrule hbound
    (fun _ _ => by rw [hstart]; exact Nat.zero_le _) (Or.inl ⟨hL, Or.inl hstart⟩)

set_option maxRecDepth 1000000 in
/-- C5 (amended) at a concrete input: iterations every 2000 ms from t = 0 to 68 s; the
one at 40 s samples the button pressed, and none of them calls `goToSleep`. -/
theorem press_scenario_defers_sleep_witness :
    ∃ s' new, run 1 ((everyMs 2000 35).map scenarioTick) (setup 0 State.boot) = .returned s' ∧
      s'.trace = (setup 0 State.boot).trace ++ new ∧
      sleepMark ∉ new ∧ Event.lightSleepStart ∉ new :=
  press_scenario_defers_sleep 1 40000 ((everyMs 2000 35).map scenarioTick)
    (setup 0 State.boot) (by decide) (by decide) (by decide) (by decide) (by decide)
    (by decide) (by decide)

/-! ## C6: the published string -/

/-- C6, as stated, fails: the weight 100000000 (a `float` value, `390625 * 2 ^ 8`) is
formatted as `100000000.00`, twelve characters; the 12-byte buffer keeps eleven, so the
stored string is `100000000.0`, which does not match `-?\d+\.\d{2}`, and that is the
value `publishWeight` stores.  (And negative zero is stored as `-0.00`.) -/
theorem published_string_cut_at_hundred_million :
    hundredMillion.toRat = 100000000 ∧ hundredMillion.mant < 2 ^ 24 ∧
    formatF2 hundredMillion = "100000000.00".data ∧
    snprintf 12 (formatF2 hundredMillion) = "100000000.0" ∧
    matchesPattern (snprintf 12 (formatF2 hundredMillion)).data = false ∧
    snprintf 12 (formatF2 ⟨true, 0, 0⟩) = "-0.00" ∧
    (publishWeight hundredMillion State.boot).weightValue = some "100000000.0" :=
  ⟨by
      have h1 : hundredMillion.num = 100000000 := by decide
      have h2 : hundredMillion.den = 1 := by decide
      have h3 : hundredMillion.neg = false := rfl
      simp [CFloat.toRat, h1, h2, h3],
    by decide, by decide, by decide, by decide, by decide, by decide⟩

/-- C6, amended. For every finite weight `w` with -9999999.995 < w < 99999999.995 the
`%.2f` output has at most 11 characters, so the 12-byte buffer keeps all of it; the
stored string matches `-?\d+\.\d{2}` and reads back as a value within 0.005 of `w`; for
`w` = +0.0 the stored string is `0.00`.  That string is the value `publishWeight` stores
in the characteristic, from every state. -/
theorem published_weight_reads_back (w : CFloat) (s : State)
    (hlo : -(9999999995 : ℚ) / 1000 < w.toRat) (hhi : w.toRat < (99999999995 : ℚ) / 1000) :
    (publishWeight w s).weightValue = some (snprintf 12 (formatF2 w)) ∧
    (∃ str, (publishWeight w s).weightValue = some str ∧ matchesPattern str.data = true ∧
      ∃ v, parseDecimal str.data = some v ∧ |v - w.toRat| ≤ 5 / 1000) ∧
    (formatF2 w).length ≤ 11 ∧
    (snprintf 12 (formatF2 w)).data = formatF2 w ∧
    matchesPattern (snprintf 12 (formatF2 w)).data = true ∧
    (∃ v, parseDecimal (snprintf 12 (formatF2 w)).data = some v ∧ |v - w.toRat| ≤ 5 / 1000) ∧
    (w.neg = false → w.mant = 0 → snprintf 12 (formatF2 w) = "0.00") := by
  have hfit := formatF2_fits w hlo hhi
  have hdata : (snprintf 12 (formatF2 w)).data = formatF2 w := by
    simp only [snprintf]
    exact List.take_of_length_le hfit
  obtain ⟨hm, hp⟩ := formatF2_reads_back w
  have hpub : (publishWeight w s).weightValue = some (snprintf 12 (formatF2 w)) := by
    cases hb : s.bleConnected <;> simp [publishWeight, emit, emits, hb]
  refine ⟨hpub, ⟨_, hpub, by rw [hdata]; exact hm, _, by rw [hdata]; exact hp,
      formatF2_near w⟩,
    hfit, hdata, by rw [hdata]; exact hm, ⟨_, by rw [hdata]; exact hp, formatF2_near w⟩,
    fun hn hz => ?_⟩
  rw [snprintf, formatF2_zero w hn hz]
  decide

/-- C6 (amended) at a concrete input: 12345 / 1024 = 12.0556... is published as
`12.06`. -/
theorem published_weight_reads_back_witness :
    snprintf 12 (formatF2 twelveKg) = "12.06" ∧
    (publishWeight twelveKg exampleState).weightValue = some (snprintf 12 (formatF2 twelveKg)) ∧
    matchesPattern (snprintf 12 (formatF2 twelveKg)).data = true :=
  have h := published_weight_reads_back twelveKg exampleState
    (by rw [twelveKg_toRat]; norm_num) (by rw [twelveKg_toRat]; norm_num)
  ⟨by decide, h.1, h.2.2.2.2.1⟩

/-! ## C7: the wake-acknowledgement screen -/

/-- C7. On resume in `goToSleep` the wake-acknowledgement screen (`showWakeupScreen`)
is played exactly when the reported wakeup cause is the GPIO source: the calls made
after `esp_light_sleep_start` are re-advertising, the `millis()` read, the backlight and
glyph restore and the cause query, followed by the calls of `showWakeupScreen` if the
cause is the GPIO one and by nothing otherwise; counted over the whole call, the screen is
drawn once for the GPIO cause and never for any other cause, in particular never for a timer wakeup.
On the cold-boot path, `setup` plays the welcome sequence and never the
wake-acknowledgement screen. -/
theorem wakeup_screen_iff_gpio (inp : SleepInput) (k fuel : Nat) (s : State)
    (bootTime : Nat) (hk : k < fuel) (hhigh : inp.samples k = .HIGH)
    (hlow : ∀ j, j < k → inp.samples j = .LOW) :
    (∃ s', goToSleep inp fuel s = .returned s' ∧
      s'.trace = s.trace ++ (beforeResume k ++ resumeEvents inp)) ∧
    resumeEvents inp =
      [.startAdvertising, .millis (millis inp.resumeTime), .lcdBacklight,
       .lcdCreateChar 0 flame, .getWakeupCause inp.cause] ++
      (if inp.cause = .gpio then showWakeupScreen else []) ∧
    showWakeupScreen.count wakeAckMark = 1 ∧
    (beforeResume k).count wakeAckMark = 0 ∧
    ((beforeResume k ++ resumeEvents inp).count wakeAckMark = 1 ↔ inp.cause = .gpio) ∧
    (inp.cause ≠ .gpio → (beforeResume k ++ resumeEvents inp).count wakeAckMark = 0) ∧
    (inp.cause = .timer → (beforeResume k ++ resumeEvents inp).count wakeAckMark = 0) ∧
    (setup bootTime s).trace =
      s.trace ++ (setupInit ++ showWelcomeScreen ++ [.millis (millis bootTime)]) ∧
    (setupInit ++ showWelcomeScreen ++ [Event.millis (millis bootTime)]).count wakeAckMark
      = 0 := by
  have hbefore : (beforeResume k).count wakeAckMark = 0 := by
    simp only [beforeResume, List.count_append, count_sleepScreen, count_spin,
      count_armEvents]
    decide
  refine ⟨⟨_, goToSleep_returned inp k fuel s hk hhigh hlow, ?_⟩, rfl,
    count_showWakeupScreen, hbefore, ?_, ?_, ?_, setup_trace bootTime s, ?_⟩
  · simp [armAndResume_eq, emits, beforeResume, List.append_assoc]
  · rw [List.count_append, hbefore, count_resumeEvents]
    by_cases h : inp.cause = .gpio <;> simp [h]
  · intro h
    rw [List.count_append, hbefore, count_resumeEvents, if_neg h]
  · intro h
    rw [List.count_append, hbefore, count_resumeEvents, h]
    decide
  · simp only [List.count_append, count_setupInit, count_showWelcomeScreen]
    simp [wakeAckMark, List.count_cons]

/-- C7 at a concrete input: a button wakeup after two pressed samples. -/
theorem wakeup_screen_iff_gpio_witness :
    ∃ s', goToSleep exampleSleep 5 exampleState = .returned s' ∧
      s'.trace.count wakeAckMark = 1 := by
  obtain ⟨⟨s', h, ht⟩, _, _, _, hiff, _⟩ :=
    wakeup_screen_iff_gpio exampleSleep 2 5 exampleState 0 (by decide) (by decide) (by decide)
  refine ⟨s', h, ?_⟩
  rw [ht]
  simpa [exampleState] using hiff.2 rfl

/-! ## C8: publishing -/

/-- C8. For every weight and every connection state, `publishWeight` stores the
formatted weight as the characteristic value (by a `setValue` call made whatever the
connection state), sends a notification if and only if `bleConnected` is set, and leaves
`bleConnected` (and the window start) unchanged. -/
theorem publishWeight_sets_value_notifies_iff_connected (weight : CFloat) (s : State) :
    (publishWeight weight s).weightValue = some (snprintf 12 (formatF2 weight)) ∧
    (publishWeight weight s).trace =
      s.trace ++ ([.setValue (snprintf 12 (formatF2 weight))] ++
        (if s.bleConnected then [.notify] else []) ++
        [.serialPrint "BLE publish: ", .serialPrintln (snprintf 12 (formatF2 weight))]) ∧
    (Event.notify ∈ ([Event.setValue (snprintf 12 (formatF2 weight))] ++
        (if s.bleConnected then [.notify] else []) ++
        [.serialPrint "BLE publish: ", .serialPrintln (snprintf 12 (formatF2 weight))])
      ↔ s.bleConnected = true) ∧
    (publishWeight weight s).bleConnected = s.bleConnected ∧
    (publishWeight weight s)._wakeMillis = s._wakeMillis := by
  cases hb : s.bleConnected <;> simp [publishWeight, emit, emits, hb]

/-! ## C9: state after a resume -/

/-- C9. For every state entering `goToSleep`, whatever `bleConnected` was: once the
button is read released the call returns, and in the state it returns `bleConnected` is
false, `_wakeMillis` is the `millis()` value of the resume time, and the calls made right
after `esp_light_sleep_start` are `BLEDevice::startAdvertising()` and that `millis()`
read; the suspend call is the only one of the call. -/
theorem resume_resets_connection (inp : SleepInput) (k fuel : Nat) (s : State)
    (hk : k < fuel) (hhigh : inp.samples k = .HIGH)
    (hlow : ∀ j, j < k → inp.samples j = .LOW) :
    ∃ s' before after, goToSleep inp fuel s = .returned s' ∧
      s'.bleConnected = false ∧
      s'._wakeMillis = millis inp.resumeTime ∧
      s'.weightValue = s.weightValue ∧
      s'.trace = s.trace ++ before ++
        [.lightSleepStart, .startAdvertising, .millis (millis inp.resumeTime)] ++ after ∧
      Event.lightSleepStart ∉ before ∧ Event.lightSleepStart ∉ after := by
  refine ⟨_, sleepScreen ++ spin k ++ [.digitalRead WAKEUP_CONFIG_PIN .HIGH] ++
      [.delay 50, .timerWakeup SLEEP_DURATION_US,
       .gpioWakeupEnable WAKEUP_CONFIG_PIN GPIO_INTR_LOW_LEVEL,
       .enableGpioWakeup],
    [.lcdBacklight, .lcdCreateChar 0 flame, .getWakeupCause inp.cause] ++
      (if inp.cause = .gpio then showWakeupScreen else []),
    goToSleep_returned inp k fuel s hk hhigh hlow, ?_, ?_, ?_, ?_, ?_, ?_⟩
  · simp [armAndResume_eq]
  · simp [armAndResume_eq]
  · simp [armAndResume_eq, emits]
  · simp [armAndResume_eq, emits, armEvents, resumeEvents, List.append_assoc]
  · intro h
    simp only [List.mem_append, List.mem_cons, List.mem_singleton, List.not_mem_nil,
      or_false] at h
    rcases h with ((h | h) | h) | h
    · exact (sleepScreen_inert _ h).1 rfl
    · rcases mem_spin h with h | h <;> exact absurd h (by decide)
    · exact absurd h (by decide)
    · revert h
      decide
  · intro h
    rcases List.mem_append.1 h with h | h
    · simp at h
    · by_cases hc : inp.cause = .gpio
      · rw [if_pos hc] at h
        exact (showWakeupScreen_inert _ h).1 rfl
      · rw [if_neg hc] at h
        simp at h

/-- C9 at a concrete input: a connected state, two pressed samples, resume at 400 s. -/
theorem resume_resets_connection_witness :
    exampleState.bleConnected = true ∧
    ∃ s', goToSleep exampleSleep 5 exampleState = .returned s' ∧
      s'.bleConnected = false ∧ s'._wakeMillis = 400000 :=
  ⟨rfl,
    let ⟨s', _, _, h, hb, hw, _⟩ :=
      resume_resets_connection exampleSleep 2 5 exampleState (by decide) (by decide)
        (by decide)
    ⟨s', h, hb, by rw [hw]; decide⟩⟩

/-! ## C10: the duration of the wake timer -/

/-- C10. What the code does at a concrete call of `goToSleep` (two pressed samples, then
a released one): the wake timer is armed exactly once, with `SLEEP_DURATION_US`, and
that value is `5 * 60 * 1000000` = 300,000,000 microseconds, five minutes; it is not the
60,000,000 microseconds, one minute, that the comment on the constant states, and no
timer of one minute is armed. -/
theorem sleep_timer_armed_for_five_minutes :
    SLEEP_DURATION_US = 5 * 60 * 1000000 ∧ SLEEP_DURATION_US = 300000000 ∧
    SLEEP_DURATION_US ≠ 60000000 ∧
    (∃ s', goToSleep exampleSleep 5 exampleState = .returned s') ∧
    (goToSleep exampleSleep 5 exampleState).state.trace.count
      (.timerWakeup SLEEP_DURATION_US) = 1 ∧
    Event.timerWakeup 300000000 ∈ (goToSleep exampleSleep 5 exampleState).state.trace ∧
    Event.timerWakeup 60000000 ∉ (goToSleep exampleSleep 5 exampleState).state.trace := by
  refine ⟨by decide, by decide, by decide, ⟨_, rfl⟩, by decide, by decide, by decide⟩

end GasYangu
